import Mathlib

/-
Verification of the R-magic session bridge (`IPython/extensions/rmagic.py`).

The module defines a class `RMagics` holding an embedded R interpreter
(`self.r`), a console-output buffer (`self.output`, fed by the
`write_console` hook registered with `ri.set_writeconsole`), and two
converter functions (`pyconverter` : host value -> R value, used on push;
`Rconverter` : python object -> host value, used on pull and on returned
results).  It exposes `eval`, `flush`, `Rpush`, `Rpull` and the
line/cell magic `R`.

Shallow embedding used here:

* Host (python) values have type `α`, embedded-interpreter (R) values
  have type `ρ`; both namespaces are association lists `List (String × β)`
  with python-dict semantics (`nsGet` / `nsSet`).
* The embedded R interpreter is an external collaborator (spec section 6).
  Its behaviour on one source line (`ri.parse` + `ri.baseenv.eval`,
  i.e. parse-and-evaluate) is an oracle `Interp.run`, returning either a
  result value or an error message (in the rpy2 version targeted, both
  parse and runtime failures surface as `RRuntimeError`), the updated R
  namespace, the console chunks written through the registered
  `write_console` hook while the line ran, and the plot pages rendered on
  the open png device while the line ran.
* `r.assign(name, v)` is a namespace primitive, modelled by `nsSet`.
  `self.r(name)` on a bare identifier (the pull loops, lines 114 and 230)
  evaluates that symbol in R, i.e. looks the name up, raising
  `RRuntimeError` when the object is not found; it is modelled directly
  as `nsGet` with a modelled not-found error message.
* The filesystem: `tempfile.mkdtemp` (line 190) appends a fresh empty
  directory to the list `World.tmpds` of live temporary directories;
  the png device (opened line 191, closed line 193) writes the rendered
  pages as files `Rplots001.png`, `Rplots002.png`, ... (the `%03d`
  pattern, numbered from 1 in page order) into that directory;
  `rmtree` (line 233) removes it.  `glob` (line 197) filters the OS
  directory listing by the pattern `Rplots*png`; python's `glob` sorts
  nothing — its order is the OS `listdir` order, which is modelled by
  the oracle `Bridge.osListing`.
* `publish_display_data(source, data)` appends a `DisplayItem` to the
  display log `World.display`; `sys.stdout.flush()` before each image
  publish (line 216) has no effect in the model.
* Console byte chunks are modelled as `String`s: `flush` (lines 62-65)
  utf-8-decodes each buffered chunk and concatenates; decoding is
  modelled at the text level, so `flush` concatenates and clears.
* Fallible python code (a `KeyError` from `self.shell.user_ns[input]`,
  an `RRuntimeError` escaping a pull) is returned as `Except PyErr`,
  paired with the world at the moment the exception propagates, so that
  resource state on exceptional exits is observable.
-/

/-- Character-list test: `p` begins `l`. -/
def charPre : List Char → List Char → Bool
  | [], _ => true
  | _ :: _, [] => false
  | c :: cs, d :: ds => c == d && charPre cs ds

/-- Character-list test: `p` ends `l`. -/
def charSuf (p l : List Char) : Bool := charPre p.reverse l.reverse

/-- Python `str.split(sep)` for a non-empty separator, on character
lists; `fuel` bounds the recursion (any `fuel > l.length` is exact). -/
def pySplitCh : Nat → List Char → List Char → List (List Char)
  | 0, _, l => [l]
  | _ + 1, _, [] => [[]]
  | fuel + 1, sep, c :: cs =>
      if charPre sep (c :: cs) then
        [] :: pySplitCh fuel sep ((c :: cs).drop sep.length)
      else
        match pySplitCh fuel sep cs with
        | [] => [[c]]
        | g :: gs => (c :: g) :: gs

/-- Python `str.split(sep)` (non-empty `sep`): `''.split(sep) = ['']`,
separators between fields, empty fields kept. -/
def pySplit (s sep : String) : List String :=
  (pySplitCh (s.data.length + 1) sep.data s.data).map String.mk

/-- Python-dict lookup on an association list (first binding wins). -/
def nsGet {β : Type} : List (String × β) → String → Option β
  | [], _ => none
  | (k, v) :: rest, n => if k = n then some v else nsGet rest n

/-- Python-dict assignment on an association list: update the existing
binding in place, or append a new one. -/
def nsSet {β : Type} : List (String × β) → String → β → List (String × β)
  | [], n, v => [(n, v)]
  | (k, w) :: rest, n, v =>
      if k = n then (k, v) :: rest else (k, w) :: nsSet rest n v

/-- Outcome of the embedded interpreter parsing and evaluating one source
line: result or error message, R namespace afterwards, console chunks
written through the `write_console` hook, and plot pages rendered on the
open png device. -/
structure RunOut (ρ : Type) where
  res : Except String ρ
  env : List (String × ρ)
  console : List String
  pages : List (List Nat)

/-- The embedded R interpreter, an external collaborator (spec section 6):
`run line env` is `ri.baseenv.eval (ri.parse line)` run in namespace
`env`. -/
structure Interp (ρ : Type) where
  run : String → List (String × ρ) → RunOut ρ

/-- One display-bus item: `publish_display_data(source, data)` payload,
`data` mapping a MIME type to text or image bytes. -/
inductive Payload where
  | text (s : String)
  | image (b : List Nat)
deriving DecidableEq, Repr

/-- A published display item. -/
structure DisplayItem where
  source : String
  data : List (String × Payload)
deriving DecidableEq, Repr

/-- `publish_display_data('RMagic.R', ...)` with a `text/plain` payload
(rmagic.py line 210). -/
def textItem (t : String) : DisplayItem :=
  ⟨"RMagic.R", [("text/plain", Payload.text t)]⟩

/-- `publish_display_data('RMagic.R', ...)` with an `image/png` payload
(rmagic.py lines 201-203 and 217-220; `fmt = png`, `mime =
mimetypes[fmt] = image/png`). -/
def pngItem (b : List Nat) : DisplayItem :=
  ⟨"RMagic.R", [("image/png", Payload.image b)]⟩

/-- The observable world: the host (`shell.user_ns`) namespace, the R
namespace, the session output buffer `self.output`, the set of live
temporary directories (each a list of (filename, bytes) entries in
creation order), and the display-bus log. -/
structure World (α ρ : Type) where
  userNs : List (String × α)
  renv : List (String × ρ)
  output : List String
  tmpds : List (List (String × List Nat))
  display : List DisplayItem

/-- Session configuration: the interpreter oracle, the two converters
(`pyconverter` on push; `Rconverter` applied to arbitrary python objects,
hence to `Option ρ` since an errored line's result is `None`), and the
OS's directory-enumeration order used by `glob` (python's `glob` returns
matches in `listdir` order, which is OS-dependent and unsorted). -/
structure Bridge (α ρ : Type) where
  interp : Interp ρ
  pyconverter : α → ρ
  Rconverter : Option ρ → α
  osListing : List (String × List Nat) → List (String × List Nat)

/-- A python exception escaping a bridge operation: a `KeyError` from a
host-namespace lookup, or an `RRuntimeError` propagating out of a pull. -/
inductive PyErr where
  | keyError (name : String)
  | rError (msg : String)
deriving DecidableEq, Repr

/-- Modelled `RRuntimeError` message for evaluating an unbound R symbol. -/
def lookupErrMsg (n : String) : String := "object not found: " ++ n

/-- Value returned by the magic `R` to its caller: a list of converted
results, a single converted result, or python `None` (covering both the
explicit `return None` and the implicit fall-through / cell-form
returns). -/
inductive RRet (α : Type) where
  | list (xs : List α)
  | single (x : α)
  | noneV
deriving DecidableEq, Repr

/-- `write_console` (rmagic.py lines 56-60): the hook appends each chunk
to `self.output`. -/
def write_console (out : List String) (chunk : String) : List String :=
  out ++ [chunk]

/-- `RMagics.flush` (rmagic.py lines 62-65): join the utf-8-decoded
buffered chunks, clear the buffer, return the text. -/
def RMagics.flush (out : List String) : String × List String :=
  (String.join out, [])

/-- The diagnostic appended by `RMagics.eval` on an interpreter error
(rmagic.py line 53): `ERROR parsing "<line>": <message>\n`. -/
def errLine (line msg : String) : String :=
  "ERROR parsing \"" ++ line ++ "\": " ++ msg ++ "\n"

/-- Result of `RMagics.eval` as it affects the session: the python-level
result (`None` on error), the R namespace, the output buffer and the
pages rendered while the line ran. -/
structure EvalOne (ρ : Type) where
  res : Option ρ
  env : List (String × ρ)
  out : List String
  pages : List (List Nat)

/-- `RMagics.eval` (rmagic.py lines 49-54): parse and evaluate one line;
console writes during evaluation land in the buffer through the hook; an
`RRuntimeError` is caught, one diagnostic is appended to the buffer, and
the result is `None`.  The function is total: interpreter errors never
propagate to the caller. -/
def RMagics.eval {α ρ : Type} (B : Bridge α ρ) (line : String)
    (env : List (String × ρ)) (out : List String) : EvalOne ρ :=
  let o := B.interp.run line env
  match o.res with
  | Except.ok v => ⟨some v, o.env, out ++ o.console, o.pages⟩
  | Except.error msg => ⟨none, o.env, out ++ o.console ++ [errLine line msg], o.pages⟩

/-- Accumulated outcome of the comprehension
`result = [self.eval(line) for line in lines]` (rmagic.py line 192). -/
structure EvalLoopOut (ρ : Type) where
  results : List (Option ρ)
  env : List (String × ρ)
  out : List String
  pages : List (List Nat)

/-- rmagic.py line 192: evaluate every line in order with `RMagics.eval`,
collecting one result per line, threading the R namespace and the output
buffer, and accumulating rendered pages in page order. -/
def evalLoop {α ρ : Type} (B : Bridge α ρ) :
    List String → List (String × ρ) → List String → EvalLoopOut ρ
  | [], env, out => ⟨[], env, out, []⟩
  | l :: rest, env, out =>
      let e := RMagics.eval B l env out
      let r := evalLoop B rest e.env e.out
      ⟨e.res :: r.results, r.env, r.out, e.pages ++ r.pages⟩

/-- The push loop shared by `RMagics.Rpush` (lines 85-87) and the
`args.input` loop of `RMagics.R` (lines 182-184):
`self.r.assign(input, self.pyconverter(self.shell.user_ns[input]))` for
each name in order.  A missing host name raises `KeyError` immediately
(names before it are already assigned). -/
def pushList {α ρ : Type} (B : Bridge α ρ) :
    List String → World α ρ → Except PyErr Unit × World α ρ
  | [], w => (Except.ok (), w)
  | n :: rest, w =>
      match nsGet w.userNs n with
      | none => (Except.error (PyErr.keyError n), w)
      | some v => pushList B rest { w with renv := nsSet w.renv n (B.pyconverter v) }

/-- `RMagics.Rpush` (rmagic.py lines 67-87): split the line on spaces and
push each name. -/
def RMagics.Rpush {α ρ : Type} (B : Bridge α ρ) (line : String)
    (w : World α ρ) : Except PyErr Unit × World α ρ :=
  pushList B (pySplit line " ") w

/-- The pull loop shared by `RMagics.Rpull` (lines 112-114) and the
`args.output` loop of `RMagics.R` (lines 227-230):
`self.shell.push(\x7boutput: self.Rconverter(self.r(output))\x7d)` for each
name in order.  `self.r(output)` evaluates the bare identifier in R —
a namespace lookup (spec section 6) — and raises `RRuntimeError` when the
object is unbound; that error is not caught, so names preceding the
failing one are already written to the host namespace. -/
def pullList {α ρ : Type} (B : Bridge α ρ) :
    List String → World α ρ → Except PyErr Unit × World α ρ
  | [], w => (Except.ok (), w)
  | n :: rest, w =>
      match nsGet w.renv n with
      | none => (Except.error (PyErr.rError (lookupErrMsg n)), w)
      | some v =>
          pullList B rest { w with userNs := nsSet w.userNs n (B.Rconverter (some v)) }

/-- `RMagics.Rpull` (rmagic.py lines 89-114): split the line on spaces and
pull each name. -/
def RMagics.Rpull {α ρ : Type} (B : Bridge α ρ) (line : String)
    (w : World α ρ) : Except PyErr Unit × World α ρ :=
  pullList B (pySplit line " ") w

/-- The parsed arguments of the `R` magic (rmagic.py lines 117-150,
produced by `parse_argstring`, an external collaborator): `-i`/`-o` are
append-actions (`None` or a non-empty list of comma-joined name groups),
the png-device options, and the positional `code` words of the line. -/
structure RArgs where
  input : Option (List String)
  output : Option (List String)
  width : Option Int
  height : Option Int
  units : Option Int
  pointsize : Option Int
  bg : Option String
  code : List String

/-- `','.join(names).split(',')` (rmagic.py lines 183 and 228). -/
def splitNames (names : List String) : List String :=
  pySplit (String.intercalate "," names) ","

/-- rmagic.py lines 186-187: the png-device configuration string built
from the non-`None` options.  Python 2 iterates the dict in unspecified
order; the source's list order `units, height, width, bg, pointsize` is
used here.  The device model does not inspect this string further. -/
def pngArgs (args : RArgs) : String :=
  String.intercalate ","
    (([("units", args.units.map toString), ("height", args.height.map toString),
       ("width", args.width.map toString), ("bg", args.bg),
       ("pointsize", args.pointsize.map toString)].filterMap
      (fun p => p.2.map (fun v => p.1 ++ "=" ++ v))))

/-- `%03d`-format a page number. -/
def pad3 (k : Nat) : String :=
  if k < 10 then "00" ++ toString k
  else if k < 100 then "0" ++ toString k
  else toString k

/-- Filename the png device gives page `k` (pattern `Rplots%03d.png`,
rmagic.py line 191; R numbers pages from 1). -/
def plotFileName (k : Nat) : String := "Rplots" ++ pad3 k ++ ".png"

/-- The files the png device leaves in the temporary directory: page `i`
(0-based) becomes `Rplots00(i+1).png`, in creation (= page) order. -/
def numberPages (pages : List (List Nat)) : List (String × List Nat) :=
  pages.enum.map (fun p => (plotFileName (p.1 + 1), p.2))

/-- The `glob` pattern `Rplots*png` of rmagic.py line 197 (fnmatch:
prefixed by `Rplots`, suffixed by `png`). -/
def globMatch (name : String) : Bool :=
  charPre "Rplots".data name.data && charSuf "png".data name.data

/-- rmagic.py lines 173-180: in line form the source lines are just the
positional `code` words; in cell form the cell body is split on newlines
and appended after them. -/
def execLines (args : RArgs) (cell : Option String) : List String :=
  args.code ++ (match cell with
                | none => []
                | some c => pySplit c "\n")

/-- rmagic.py lines 182-184: `if args.input:` push the comma-split
names. -/
def pushStage {α ρ : Type} (B : Bridge α ρ) (input : Option (List String))
    (w : World α ρ) : Except PyErr Unit × World α ρ :=
  match input with
  | none => (Except.ok (), w)
  | some l => pushList B (splitNames l) w

/-- rmagic.py lines 227-230: `if args.output:` pull the comma-split
names. -/
def pullStage {α ρ : Type} (B : Bridge α ρ) (output : Option (List String))
    (w : World α ρ) : Except PyErr Unit × World α ρ :=
  match output with
  | none => (Except.ok (), w)
  | some l => pullList B (splitNames l) w

/-- The world after the input-push stage of `R` succeeded. -/
def pushedW {α ρ : Type} (B : Bridge α ρ) (args : RArgs) (w : World α ρ) :
    World α ρ :=
  (pushStage B args.input w).2

/-- The evaluation loop of one `R` call (rmagic.py line 192), run from the
world after the push stage. -/
def evalOut {α ρ : Type} (B : Bridge α ρ) (args : RArgs) (cell : Option String)
    (w1 : World α ρ) : EvalLoopOut ρ :=
  evalLoop B (execLines args cell) w1.renv w1.output

/-- The files the png device wrote into the call's temporary directory
(rmagic.py lines 191-193). -/
def plotFiles {α ρ : Type} (B : Bridge α ρ) (args : RArgs) (cell : Option String)
    (w1 : World α ρ) : List (String × List Nat) :=
  numberPages (evalOut B args cell w1).pages

/-- rmagic.py line 197: `[file(f).read() for f in glob(tmpd/Rplots*png)]` —
the OS lists the directory in its own order, `glob` filters by the
pattern, each match is read fully. -/
def imagesOf {α ρ : Type} (B : Bridge α ρ) (args : RArgs) (cell : Option String)
    (w1 : World α ρ) : List (List Nat) :=
  (((B.osListing (plotFiles B args cell w1)).filter
      (fun f => globMatch f.1)).map (fun f => f.2))

/-- The text drained by `flush = self.flush()` (rmagic.py line 207): the
whole buffer after the evaluation loop, concatenated. -/
def flushedText {α ρ : Type} (B : Bridge α ρ) (args : RArgs) (cell : Option String)
    (w1 : World α ρ) : String :=
  (RMagics.flush (evalOut B args cell w1).out).1

/-- The display items one `R` call appends (rmagic.py lines 205-220): the
drained text as a `text/plain` item if non-empty, then every captured
image as an `image/png` item, in enumeration order. -/
def newDisplay {α ρ : Type} (B : Bridge α ρ) (args : RArgs) (cell : Option String)
    (w1 : World α ρ) : List DisplayItem :=
  (if flushedText B args cell w1 = "" then []
   else [textItem (flushedText B args cell w1)]) ++
  (imagesOf B args cell w1).map pngItem

/-- The `published` flag of rmagic.py lines 205-220: set when the drained
text was non-empty or at least one image was published. -/
def publishedFlag {α ρ : Type} (B : Bridge α ρ) (args : RArgs) (cell : Option String)
    (w1 : World α ρ) : Bool :=
  decide (flushedText B args cell w1 ≠ "") || !(imagesOf B args cell w1).isEmpty

/-- The world of one `R` call just before the output-pull stage: R
namespace and buffer threaded through the evaluation loop, the buffer
drained by `flush`, the temporary directory (created line 190) holding
the device's files, the new display items appended. -/
def w4of {α ρ : Type} (B : Bridge α ρ) (args : RArgs) (cell : Option String)
    (w1 : World α ρ) : World α ρ :=
  { w1 with
    renv := (evalOut B args cell w1).env,
    output := (RMagics.flush (evalOut B args cell w1).out).2,
    tmpds := w1.tmpds ++ [plotFiles B args cell w1],
    display := w1.display ++ newDisplay B args cell w1 }

/-- rmagic.py lines 238-243: `if return_output and not published:` return
the list of converted results when more than one line, the converted
first result when the line list is non-empty, else `None`; in every
other case (cell form, or something published) return `None`. -/
def retValue {α ρ : Type} (B : Bridge α ρ) (lineForm published : Bool)
    (L : List String) (results : List (Option ρ)) : RRet α :=
  if lineForm && !published then
    if L.length > 1 then RRet.list (results.map B.Rconverter)
    else if !L.isEmpty then RRet.single (B.Rconverter results.headI)
    else RRet.noneV
  else RRet.noneV

/-- rmagic.py lines 186-243, after the push stage succeeded: open the
device in a fresh temporary directory, evaluate the lines, close the
device, read the images, publish text then images, pull the outputs
(an `RRuntimeError` here propagates, skipping the `rmtree`), remove the
temporary directory, and compute the return value. -/
def Rbody {α ρ : Type} (B : Bridge α ρ) (args : RArgs) (cell : Option String)
    (w1 : World α ρ) : Except PyErr (RRet α) × World α ρ :=
  match pullStage B args.output (w4of B args cell w1) with
  | (Except.error e, w5) => (Except.error e, w5)
  | (Except.ok _, w5) =>
      (Except.ok (retValue B cell.isNone (publishedFlag B args cell w1)
          (execLines args cell) (evalOut B args cell w1).results),
       { w5 with tmpds := w5.tmpds.dropLast })

/-- `RMagics.R` (rmagic.py lines 152-243): the line/cell magic.  A
`KeyError` in the push stage propagates before the temporary directory
exists; afterwards the body runs as in `Rbody`. -/
def RMagics.R {α ρ : Type} (B : Bridge α ρ) (args : RArgs) (cell : Option String)
    (w : World α ρ) : Except PyErr (RRet α) × World α ρ :=
  match pushStage B args.input w with
  | (Except.error e, w1) => (Except.error e, w1)
  | (Except.ok _, w1) => Rbody B args cell w1

/-! ### Basic namespace and list lemmas -/

theorem nsGet_nsSet_self {β : Type} (ns : List (String × β)) (n : String) (v : β) :
    nsGet (nsSet ns n v) n = some v := by
  induction ns with
  | nil => simp [nsSet, nsGet]
  | cons kv rest ih =>
      obtain ⟨k, w⟩ := kv
      by_cases h : k = n
      · simp [nsSet, nsGet, h]
      · simp [nsSet, nsGet, h, ih]

theorem nsGet_nsSet_ne {β : Type} (ns : List (String × β)) {m n : String} (v : β)
    (h : m ≠ n) : nsGet (nsSet ns n v) m = nsGet ns m := by
  have h' : ¬n = m := fun hx => h hx.symm
  induction ns with
  | nil => simp [nsSet, nsGet, h']
  | cons kv rest ih =>
      obtain ⟨k, w⟩ := kv
      by_cases hk : k = n
      · subst hk
        simp [nsSet, nsGet, h']
      · simp [nsSet, nsGet, hk, ih]

theorem appendEqSelfIff {γ : Type} (l m : List γ) : l ++ m = l ↔ m = [] := by
  constructor
  · intro h
    have hl := congrArg List.length h
    simp at hl
    exact hl
  · intro h
    simp [h]

theorem dropLastAppendSingle {γ : Type} (l : List γ) (a : γ) :
    (l ++ [a]).dropLast = l := by
  simp

/-! ### Frame lemmas: what each loop leaves untouched -/

theorem pushList_world {α ρ : Type} (B : Bridge α ρ) (names : List String)
    (w : World α ρ) : ∃ r, (pushList B names w).2 = { w with renv := r } := by
  induction names generalizing w with
  | nil => exact ⟨w.renv, rfl⟩
  | cons n rest ih =>
      cases h : nsGet w.userNs n with
      | none => exact ⟨w.renv, by simp [pushList, h]⟩
      | some v =>
          obtain ⟨r, hr⟩ := ih { w with renv := nsSet w.renv n (B.pyconverter v) }
          exact ⟨r, by simp [pushList, h, hr]⟩

theorem pullList_world {α ρ : Type} (B : Bridge α ρ) (names : List String)
    (w : World α ρ) : ∃ u, (pullList B names w).2 = { w with userNs := u } := by
  induction names generalizing w with
  | nil => exact ⟨w.userNs, rfl⟩
  | cons n rest ih =>
      cases h : nsGet w.renv n with
      | none => exact ⟨w.userNs, by simp [pullList, h]⟩
      | some v =>
          obtain ⟨u, hu⟩ := ih { w with userNs := nsSet w.userNs n (B.Rconverter (some v)) }
          exact ⟨u, by simp [pullList, h, hu]⟩

theorem pushStage_world {α ρ : Type} (B : Bridge α ρ) (input : Option (List String))
    (w : World α ρ) : ∃ r, (pushStage B input w).2 = { w with renv := r } := by
  cases input with
  | none => exact ⟨w.renv, rfl⟩
  | some l => exact pushList_world B (splitNames l) w

theorem pullStage_world {α ρ : Type} (B : Bridge α ρ) (output : Option (List String))
    (w : World α ρ) : ∃ u, (pullStage B output w).2 = { w with userNs := u } := by
  cases output with
  | none => exact ⟨w.userNs, rfl⟩
  | some l => exact pullList_world B (splitNames l) w

theorem pullList_error_rError {α ρ : Type} (B : Bridge α ρ) (names : List String)
    (w : World α ρ) (e : PyErr) (w5 : World α ρ)
    (h : pullList B names w = (Except.error e, w5)) : ∃ m, e = PyErr.rError m := by
  induction names generalizing w with
  | nil => simp [pullList] at h
  | cons n rest ih =>
      cases hn : nsGet w.renv n with
      | none =>
          simp [pullList, hn] at h
          exact ⟨lookupErrMsg n, h.1.symm⟩
      | some v =>
          simp only [pullList, hn] at h
          exact ih _ h

theorem pullStage_error_rError {α ρ : Type} (B : Bridge α ρ) (output : Option (List String))
    (w : World α ρ) (e : PyErr) (w5 : World α ρ)
    (h : pullStage B output w = (Except.error e, w5)) : ∃ m, e = PyErr.rError m := by
  cases output with
  | none => simp [pullStage] at h
  | some l => exact pullList_error_rError B (splitNames l) w e w5 h

/-! ### Characterising successful push and pull loops -/

theorem pushList_ok {α ρ : Type} (B : Bridge α ρ) (names : List String) (w : World α ρ)
    (hall : ∀ n ∈ names, (nsGet w.userNs n).isSome) :
    ∃ w1, pushList B names w = (Except.ok (), w1) ∧
      w1.userNs = w.userNs ∧ w1.output = w.output ∧ w1.display = w.display ∧
      w1.tmpds = w.tmpds ∧
      ∀ m, nsGet w1.renv m =
        if m ∈ names then (nsGet w.userNs m).map B.pyconverter else nsGet w.renv m := by
  induction names generalizing w with
  | nil => exact ⟨w, rfl, rfl, rfl, rfl, rfl, fun m => by simp⟩
  | cons n rest ih =>
      have hn := hall n (List.mem_cons_self n rest)
      cases h : nsGet w.userNs n with
      | none => rw [h] at hn; cases hn
      | some v =>
          have hall' : ∀ m ∈ rest,
              (nsGet ({ w with renv := nsSet w.renv n (B.pyconverter v) } : World α ρ).userNs m).isSome :=
            fun m hm => hall m (List.mem_cons_of_mem _ hm)
          obtain ⟨w1, hw, hu, ho, hd, ht, hchar⟩ :=
            ih { w with renv := nsSet w.renv n (B.pyconverter v) } hall'
          refine ⟨w1, by simp [pushList, h, hw], hu, ho, hd, ht, ?_⟩
          intro m
          rw [hchar m]
          by_cases hm : m ∈ rest
          · simp [hm, List.mem_cons]
          · by_cases hmn : m = n
            · subst hmn
              simp [hm, h, nsGet_nsSet_self]
            · simp [hm, hmn, nsGet_nsSet_ne _ _ hmn]

theorem pullList_ok {α ρ : Type} (B : Bridge α ρ) (names : List String) (w : World α ρ)
    (hall : ∀ n ∈ names, (nsGet w.renv n).isSome) :
    ∃ w2, pullList B names w = (Except.ok (), w2) ∧
      w2.renv = w.renv ∧ w2.output = w.output ∧ w2.display = w.display ∧
      w2.tmpds = w.tmpds ∧
      ∀ m, nsGet w2.userNs m =
        if m ∈ names then (nsGet w.renv m).map (fun v => B.Rconverter (some v))
        else nsGet w.userNs m := by
  induction names generalizing w with
  | nil => exact ⟨w, rfl, rfl, rfl, rfl, rfl, fun m => by simp⟩
  | cons n rest ih =>
      have hn := hall n (List.mem_cons_self n rest)
      cases h : nsGet w.renv n with
      | none => rw [h] at hn; cases hn
      | some v =>
          have hall' : ∀ m ∈ rest,
              (nsGet ({ w with userNs := nsSet w.userNs n (B.Rconverter (some v)) } : World α ρ).renv m).isSome :=
            fun m hm => hall m (List.mem_cons_of_mem _ hm)
          obtain ⟨w2, hw, hr, ho, hd, ht, hchar⟩ :=
            ih { w with userNs := nsSet w.userNs n (B.Rconverter (some v)) } hall'
          refine ⟨w2, by simp [pullList, h, hw], hr, ho, hd, ht, ?_⟩
          intro m
          rw [hchar m]
          by_cases hm : m ∈ rest
          · simp [hm, List.mem_cons]
          · by_cases hmn : m = n
            · subst hmn
              simp [hm, h, nsGet_nsSet_self]
            · simp [hm, hmn, nsGet_nsSet_ne _ _ hmn]

theorem pushList_error_of_missing {α ρ : Type} (B : Bridge α ρ) (names : List String)
    (w : World α ρ) (bad : String) (hmem : bad ∈ names)
    (hbad : nsGet w.userNs bad = none) :
    ∃ m w1, nsGet w.userNs m = none ∧
      pushList B names w = (Except.error (PyErr.keyError m), w1) := by
  induction names generalizing w with
  | nil => cases hmem
  | cons n rest ih =>
      cases h : nsGet w.userNs n with
      | none => exact ⟨n, w, h, by simp [pushList, h]⟩
      | some v =>
          have hmem' : bad ∈ rest := by
            rcases List.mem_cons.mp hmem with hr | hr
            · rw [hr] at hbad; rw [h] at hbad; cases hbad
            · exact hr
          obtain ⟨m, w1, hm, hp⟩ :=
            ih { w with renv := nsSet w.renv n (B.pyconverter v) } hmem' hbad
          exact ⟨m, w1, hm, by simp [pushList, h, hp]⟩

/-! ### Display-item classification and the published flag -/

/-- A display item carrying a `text/plain` payload. -/
def textDisp (d : DisplayItem) : Bool := d.data.any (fun p => p.1 == "text/plain")

/-- A display item carrying an `image/png` payload. -/
def imgDisp (d : DisplayItem) : Bool := d.data.any (fun p => p.1 == "image/png")

theorem textDisp_textItem (t : String) : textDisp (textItem t) = true := rfl

theorem textDisp_pngItem (b : List Nat) : textDisp (pngItem b) = false := rfl

theorem imgDisp_textItem (t : String) : imgDisp (textItem t) = false := rfl

theorem imgDisp_pngItem (b : List Nat) : imgDisp (pngItem b) = true := rfl

theorem filter_textDisp_pngs (l : List (List Nat)) :
    (l.map pngItem).filter textDisp = [] := by
  induction l with
  | nil => rfl
  | cons b rest ih => simp [List.filter_cons, textDisp_pngItem, ih]

theorem filter_imgDisp_pngs (l : List (List Nat)) :
    (l.map pngItem).filter imgDisp = l.map pngItem := by
  induction l with
  | nil => rfl
  | cons b rest ih => simp [List.filter_cons, imgDisp_pngItem, ih]

theorem newDisplay_eq_nil_iff {α ρ : Type} (B : Bridge α ρ) (args : RArgs)
    (cell : Option String) (w1 : World α ρ) :
    newDisplay B args cell w1 = [] ↔ publishedFlag B args cell w1 = false := by
  unfold newDisplay publishedFlag
  by_cases ht : flushedText B args cell w1 = "" <;>
    cases himg : imagesOf B args cell w1 <;> simp [ht, himg]

theorem retValue_cellForm {α ρ : Type} (B : Bridge α ρ) (p : Bool) (L : List String)
    (rs : List (Option ρ)) : retValue B false p L rs = RRet.noneV := rfl

theorem retValue_published {α ρ : Type} (B : Bridge α ρ) (lf : Bool) (L : List String)
    (rs : List (Option ρ)) : retValue B lf true L rs = RRet.noneV := by
  cases lf <;> rfl

/-! ### Anatomy of a successful `R` call -/

theorem R_ok_dest {α ρ : Type} (B : Bridge α ρ) (args : RArgs) (cell : Option String)
    (w : World α ρ) (ret : RRet α) (w' : World α ρ)
    (h : RMagics.R B args cell w = (Except.ok ret, w')) :
    ∃ w1 w5, pushStage B args.input w = (Except.ok (), w1) ∧
      pullStage B args.output (w4of B args cell w1) = (Except.ok (), w5) ∧
      ret = retValue B cell.isNone (publishedFlag B args cell w1)
        (execLines args cell) (evalOut B args cell w1).results ∧
      w' = { w5 with tmpds := w5.tmpds.dropLast } := by
  unfold RMagics.R at h
  cases hp : pushStage B args.input w with
  | mk fst w1 =>
      rw [hp] at h
      cases fst with
      | error e => simp at h
      | ok u =>
          cases u
          dsimp only at h
          unfold Rbody at h
          cases hq : pullStage B args.output (w4of B args cell w1) with
          | mk fst2 w5 =>
              rw [hq] at h
              cases fst2 with
              | error e => simp at h
              | ok u2 =>
                  cases u2
                  dsimp only at h
                  simp at h
                  exact ⟨w1, w5, rfl, hq, h.1.symm, h.2.symm⟩

theorem R_display_eq {α ρ : Type} (B : Bridge α ρ) (args : RArgs) (cell : Option String)
    (w w1 : World α ρ) (h : pushStage B args.input w = (Except.ok (), w1)) :
    ((RMagics.R B args cell w).2).display = w.display ++ newDisplay B args cell w1 := by
  have hw1 : w1.display = w.display := by
    obtain ⟨r, hr⟩ := pushStage_world B args.input w
    rw [h] at hr
    simp only at hr
    rw [hr]
  unfold RMagics.R
  rw [h]
  dsimp only
  unfold Rbody
  cases hq : pullStage B args.output (w4of B args cell w1) with
  | mk fst2 w5 =>
      have hw5 : w5.display = (w4of B args cell w1).display := by
        obtain ⟨u', hu⟩ := pullStage_world B args.output (w4of B args cell w1)
        rw [hq] at hu
        simp only at hu
        rw [hu]
      cases fst2 with
      | error e =>
          dsimp only
          rw [hw5]
          simp [w4of, hw1]
      | ok u2 =>
          dsimp only
          rw [hw5]
          simp [w4of, hw1]

/-! ### Concrete sessions used to exercise the model -/

/-- A concrete interpreter-to-host converter: python `None` becomes 0. -/
def natConv : Option Nat → Nat := fun o => o.getD 0

/-- A session whose interpreter evaluates every line to `v`, writing no
console output and rendering no plots. -/
def okBridge (v : Nat) : Bridge Nat Nat :=
  ⟨⟨fun _ env => ⟨Except.ok v, env, [], []⟩⟩, id, natConv, id⟩

/-- A session whose interpreter fails on every line with message `bad`. -/
def errBridge : Bridge Nat Nat :=
  ⟨⟨fun _ env => ⟨Except.error "bad", env, [], []⟩⟩, id, natConv, id⟩

/-- A session whose interpreter prints `hello` on every line. -/
def echoBridge : Bridge Nat Nat :=
  ⟨⟨fun _ env => ⟨Except.ok 0, env, ["hello"], []⟩⟩, id, natConv, id⟩

/-- A session whose interpreter renders two plot pages on every line,
running on an OS that happens to list directory entries in reverse
creation order (legitimate: `listdir` order is unspecified). -/
def pageBridge : Bridge Nat Nat :=
  ⟨⟨fun _ env => ⟨Except.ok 0, env, [], [[10], [20]]⟩⟩, id, natConv, List.reverse⟩

/-- The empty world. -/
def emptyW : World Nat Nat := ⟨[], [], [], [], []⟩

/-- `R` magic arguments with no options, no names and no code. -/
def baseArgs : RArgs := ⟨none, none, none, none, none, none, none, []⟩

/-- Line-form call evaluating the single line `7`. -/
def c1args : RArgs := { baseArgs with code := ["7"] }

/-- Call asking to pull the output name `y`. -/
def leakArgs : RArgs := { baseArgs with output := some ["y"] }

/-- Line-form call evaluating one plotting line. -/
def c4args : RArgs := { baseArgs with code := ["plot(x)"] }

/-- Host namespace holding `x = 3` and `y = 4`. -/
def rtW : World Nat Nat := ⟨[("x", 3), ("y", 4)], [], [], [], []⟩

/-- Host namespace holding only `a`, with a chunk already buffered. -/
def c7W : World Nat Nat := ⟨[("a", 1)], [], ["prior"], [], []⟩

/-- R namespace holding only `a`. -/
def c10W : World Nat Nat := ⟨[], [("a", 5)], [], [], []⟩

/-! ### Claim C1 -/

/-- Claim C1: an `execute` invocation in line form (no cell body) that
published neither text nor images returns the converted single result
when exactly one line was evaluated, the ordered list of converted
results when more than one line was evaluated, and `None` when the line
sequence was empty; a cell-form invocation, or one that published
anything, returns `None`. -/
theorem R_return_policy {α ρ : Type} (B : Bridge α ρ) (args : RArgs)
    (cell : Option String) (w : World α ρ) (ret : RRet α) (w' : World α ρ)
    (h : RMagics.R B args cell w = (Except.ok ret, w')) :
    (cell = none → w'.display = w.display →
      ret = (if (execLines args cell).length > 1 then
               RRet.list ((evalOut B args cell (pushedW B args w)).results.map B.Rconverter)
             else if !(execLines args cell).isEmpty then
               RRet.single (B.Rconverter (evalOut B args cell (pushedW B args w)).results.headI)
             else RRet.noneV)) ∧
    (∀ c, cell = some c → ret = RRet.noneV) ∧
    (w'.display ≠ w.display → ret = RRet.noneV) := by
  obtain ⟨w1, w5, hp, hq, hret, hw'⟩ := R_ok_dest B args cell w ret w' h
  have hpw : pushedW B args w = w1 := by rw [pushedW, hp]
  have hdisp : w'.display = w.display ++ newDisplay B args cell w1 := by
    have hd := R_display_eq B args cell w w1 hp
    rw [h] at hd
    exact hd
  refine ⟨?_, ?_, ?_⟩
  · intro hc hd
    rw [hd] at hdisp
    have hnil : newDisplay B args cell w1 = [] := (appendEqSelfIff _ _).mp hdisp.symm
    have hpub : publishedFlag B args cell w1 = false :=
      (newDisplay_eq_nil_iff B args cell w1).mp hnil
    subst hc
    rw [hret, hpub, hpw]
    rfl
  · intro c hc
    subst hc
    rw [hret]
    rfl
  · intro hd
    cases hpub : publishedFlag B args cell w1 with
    | false =>
        have hnil := (newDisplay_eq_nil_iff B args cell w1).mpr hpub
        rw [hnil] at hdisp
        simp at hdisp
        exact absurd hdisp hd
    | true =>
        rw [hret, hpub]
        exact retValue_published B cell.isNone (execLines args cell)
          (evalOut B args cell w1).results

theorem R_return_policy_witness :
    (RMagics.R (okBridge 7) c1args none emptyW).1 = Except.ok (RRet.single 7) ∧
    RRet.single 7 = (if (execLines c1args none).length > 1 then
        RRet.list ((evalOut (okBridge 7) c1args none
          (pushedW (okBridge 7) c1args emptyW)).results.map (okBridge 7).Rconverter)
      else if !(execLines c1args none).isEmpty then
        RRet.single ((okBridge 7).Rconverter (evalOut (okBridge 7) c1args none
          (pushedW (okBridge 7) c1args emptyW)).results.headI)
      else RRet.noneV) := by
  refine ⟨rfl, ?_⟩
  exact (R_return_policy (okBridge 7) c1args none emptyW (RRet.single 7)
    ((RMagics.R (okBridge 7) c1args none emptyW).2) (by rfl)).1 rfl (by rfl)

/-! ### Claim C2 -/

/-- Claim C2 counterexample: a call in line form pulling the output name
`y`, which is unbound in the R namespace, exits with an error — and the
temporary directory created for the call (one entry, still empty) is
still live when the error propagates, while no directory existed before
the call.  The claim's "removed on every exit path" is therefore false:
`rmtree` (rmagic.py line 233) is only reached on the no-exception
path. -/
theorem tmpdir_leak_cex :
    (RMagics.R (okBridge 7) leakArgs none emptyW).1
        = Except.error (PyErr.rError (lookupErrMsg "y")) ∧
    ((RMagics.R (okBridge 7) leakArgs none emptyW).2).tmpds = [[]] ∧
    emptyW.tmpds = [] :=
  ⟨rfl, rfl, rfl⟩

/-- Claim C2 amended: exactly one temporary directory is created per
`execute` call and it is removed before a *normal* return (and no
directory is created when the call fails in the input-push stage); but
when an exception propagates after the directory's creation — e.g. when
pulling an undefined output name — the directory is not removed. -/
theorem tmpdir_removed_on_ok {α ρ : Type} (B : Bridge α ρ) (args : RArgs)
    (cell : Option String) (w : World α ρ) :
    (∀ ret w', RMagics.R B args cell w = (Except.ok ret, w') → w'.tmpds = w.tmpds) ∧
    (∀ n w', RMagics.R B args cell w = (Except.error (PyErr.keyError n), w') →
      w'.tmpds = w.tmpds) := by
  constructor
  · intro ret w' h
    obtain ⟨w1, w5, hp, hq, hret, hw'⟩ := R_ok_dest B args cell w ret w' h
    have h1 : w1.tmpds = w.tmpds := by
      obtain ⟨r, hr⟩ := pushStage_world B args.input w
      rw [hp] at hr
      simp only at hr
      rw [hr]
    have h5 : w5.tmpds = (w4of B args cell w1).tmpds := by
      obtain ⟨u, hu⟩ := pullStage_world B args.output (w4of B args cell w1)
      rw [hq] at hu
      simp only at hu
      rw [hu]
    rw [hw']
    show w5.tmpds.dropLast = w.tmpds
    rw [h5]
    show (w1.tmpds ++ [plotFiles B args cell w1]).dropLast = w.tmpds
    rw [dropLastAppendSingle, h1]
  · intro n w' h
    unfold RMagics.R at h
    cases hp : pushStage B args.input w with
    | mk fst w1 =>
        rw [hp] at h
        have h1 : w1.tmpds = w.tmpds := by
          obtain ⟨r, hr⟩ := pushStage_world B args.input w
          rw [hp] at hr
          simp only at hr
          rw [hr]
        cases fst with
        | error e =>
            dsimp only at h
            simp at h
            rw [← h.2, h1]
        | ok u =>
            cases u
            dsimp only at h
            unfold Rbody at h
            cases hq : pullStage B args.output (w4of B args cell w1) with
            | mk fst2 w5 =>
                rw [hq] at h
                cases fst2 with
                | error e2 =>
                    dsimp only at h
                    simp at h
                    obtain ⟨m, hm⟩ := pullStage_error_rError B args.output _ e2 w5 hq
                    rw [hm] at h
                    exact (PyErr.noConfusion h.1)
                | ok u2 =>
                    cases u2
                    dsimp only at h
                    simp at h

theorem tmpdir_removed_on_ok_witness :
    ((RMagics.R (okBridge 7) c1args none emptyW).2).tmpds = emptyW.tmpds :=
  (tmpdir_removed_on_ok (okBridge 7) c1args none emptyW).1 (RRet.single 7)
    ((RMagics.R (okBridge 7) c1args none emptyW).2) (by rfl)

/-! ### Claim C3 -/

/-- Claim C3: when the interpreter reports a parse or runtime error on a
line, `eval` (a total function in the model — the error never propagates)
appends exactly one diagnostic of the form `ERROR parsing "<line>":
<message>` after the previously buffered output (and after any console
chunks the failing line itself wrote), returns the empty result `None`
for that line, and the evaluation loop continues with the remaining
lines. -/
theorem eval_error_recovery {α ρ : Type} (B : Bridge α ρ) (line : String)
    (env : List (String × ρ)) (out : List String) (msg : String) (rest : List String)
    (h : (B.interp.run line env).res = Except.error msg) :
    RMagics.eval B line env out =
      ⟨none, (B.interp.run line env).env,
       out ++ (B.interp.run line env).console ++ [errLine line msg],
       (B.interp.run line env).pages⟩ ∧
    (evalLoop B (line :: rest) env out).results =
      none :: (evalLoop B rest (B.interp.run line env).env
        (out ++ (B.interp.run line env).console ++ [errLine line msg])).results := by
  have he : RMagics.eval B line env out =
      (⟨none, (B.interp.run line env).env,
        out ++ (B.interp.run line env).console ++ [errLine line msg],
        (B.interp.run line env).pages⟩ : EvalOne ρ) := by
    unfold RMagics.eval
    dsimp only
    rw [h]
  refine ⟨he, ?_⟩
  show (evalLoop B (line :: rest) env out).results = _
  conv_lhs => rw [evalLoop, he]

theorem eval_error_recovery_witness :
    (errBridge.interp.run "((" []).res = Except.error "bad" ∧
    RMagics.eval errBridge "((" [] ["prior"] =
      ⟨none, [], ["prior", errLine "((" "bad"], []⟩ := by
  refine ⟨rfl, ?_⟩
  exact ((eval_error_recovery errBridge "((" [] ["prior"] "bad" [] rfl).1).trans (by rfl)

/-! ### Claim C4 -/

/-- Claim C4 counterexample: one evaluated line renders two pages, so the
device writes `Rplots001.png` (bytes `[10]`) then `Rplots002.png` (bytes
`[20]`) — sorted-by-filename order is page order.  On an OS whose
directory listing happens to be in reverse creation order, `glob`
enumerates the files in that listing order (python's `glob` applies no
sorting), and the call publishes page 2 before page 1 — not the
claim's sorted / page order. -/
theorem glob_unsorted_cex :
    plotFiles pageBridge c4args none emptyW
        = [("Rplots001.png", [10]), ("Rplots002.png", [20])] ∧
    ((RMagics.R pageBridge c4args none emptyW).2).display
        = [pngItem [20], pngItem [10]] ∧
    [pngItem [20], pngItem [10]] ≠ [pngItem [10], pngItem [20]] := by
  refine ⟨rfl, rfl, ?_⟩
  decide

/-- Claim C4 amended: the image files in the temporary directory are
enumerated in the order the OS lists the directory (`glob` filters the
listing by `Rplots*png` but applies no sorting, so the numeric page
suffix does not order the enumeration), and each captured image is
published as a binary display item with MIME type `image/png` and source
identifier `RMagic.R` (the `pngItem` constructor), in that enumeration
order. -/
theorem images_publish_order {α ρ : Type} (B : Bridge α ρ) (args : RArgs)
    (cell : Option String) (w w1 : World α ρ)
    (h : pushStage B args.input w = (Except.ok (), w1)) :
    ((RMagics.R B args cell w).2).display.filter imgDisp =
      w.display.filter imgDisp ++ (imagesOf B args cell w1).map pngItem := by
  rw [R_display_eq B args cell w w1 h, List.filter_append]
  congr 1
  unfold newDisplay
  rw [List.filter_append, filter_imgDisp_pngs]
  by_cases ht : flushedText B args cell w1 = "" <;>
    simp [ht, List.filter_cons, imgDisp_textItem]

theorem images_publish_order_witness :
    pushStage pageBridge c4args.input emptyW = (Except.ok (), emptyW) ∧
    ((RMagics.R pageBridge c4args none emptyW).2).display.filter imgDisp =
      emptyW.display.filter imgDisp ++
        (imagesOf pageBridge c4args none emptyW).map pngItem :=
  ⟨rfl, images_publish_order pageBridge c4args none emptyW emptyW rfl⟩

/-! ### Claim C5 -/

/-- Claim C5: for a set of names all present in the host namespace,
`push` of those names followed by `pull` of the same names succeeds and
leaves each name bound in the host namespace to the conversion
round-trip (host-to-interpreter converter, then interpreter-to-host
converter) of its original value. -/
theorem push_pull_roundtrip {α ρ : Type} (B : Bridge α ρ) (line : String)
    (w : World α ρ)
    (hall : ∀ n ∈ pySplit line " ", (nsGet w.userNs n).isSome) :
    ∃ w1 w2, RMagics.Rpush B line w = (Except.ok (), w1) ∧
      RMagics.Rpull B line w1 = (Except.ok (), w2) ∧
      ∀ n v, n ∈ pySplit line " " → nsGet w.userNs n = some v →
        nsGet w2.userNs n = some (B.Rconverter (some (B.pyconverter v))) := by
  obtain ⟨w1, hpush, hu, ho, hd, ht, hchar⟩ := pushList_ok B (pySplit line " ") w hall
  have hall2 : ∀ n ∈ pySplit line " ", (nsGet w1.renv n).isSome := by
    intro n hn
    rw [hchar n, if_pos hn]
    cases hx : nsGet w.userNs n with
    | none =>
        have hs := hall n hn
        rw [hx] at hs
        cases hs
    | some v => rfl
  obtain ⟨w2, hpull, hr2, ho2, hd2, ht2, hchar2⟩ := pullList_ok B (pySplit line " ") w1 hall2
  refine ⟨w1, w2, hpush, hpull, ?_⟩
  intro n v hn hv
  rw [hchar2 n, if_pos hn, hchar n, if_pos hn, hv]
  rfl

theorem push_pull_roundtrip_witness :
    (∀ n ∈ pySplit "x y" " ", (nsGet rtW.userNs n).isSome) ∧
    ∃ w1 w2, RMagics.Rpush (okBridge 0) "x y" rtW = (Except.ok (), w1) ∧
      RMagics.Rpull (okBridge 0) "x y" w1 = (Except.ok (), w2) ∧
      ∀ n v, n ∈ pySplit "x y" " " → nsGet rtW.userNs n = some v →
        nsGet w2.userNs n = some ((okBridge 0).Rconverter (some ((okBridge 0).pyconverter v))) :=
  ⟨by decide, push_pull_roundtrip (okBridge 0) "x y" rtW (by decide)⟩

/-! ### Claim C6 -/

theorem foldl_write_console (chunks : List String) :
    ∀ acc, chunks.foldl write_console acc = acc ++ chunks := by
  induction chunks with
  | nil => intro acc; simp
  | cons c cs ih => intro acc; simp [write_console, ih]

/-- Claim C6: draining the output buffer is read-and-clear — on a buffer
built by console writes in arrival order, `flush` returns their
concatenation (decoded text) and empties the buffer, so an immediate
second drain returns empty text. -/
theorem flush_read_and_clear (chunks : List String) :
    (RMagics.flush (chunks.foldl write_console [])).1 = String.join chunks ∧
    (RMagics.flush (chunks.foldl write_console [])).2 = [] ∧
    (RMagics.flush ((RMagics.flush (chunks.foldl write_console [])).2)).1 = "" := by
  rw [foldl_write_console chunks []]
  exact ⟨rfl, rfl, rfl⟩

/-! ### Claim C7 -/

/-- Claim C7: a push invocation naming an identifier absent from the host
namespace fails with a name-lookup error (`KeyError` on
`shell.user_ns[input]`, rmagic.py line 87) that propagates to the caller;
nothing is swallowed into the output buffer or published. -/
theorem push_missing_name_fatal {α ρ : Type} (B : Bridge α ρ) (line : String)
    (w : World α ρ) (bad : String)
    (hmem : bad ∈ pySplit line " ") (hbad : nsGet w.userNs bad = none) :
    ∃ m w1, nsGet w.userNs m = none ∧
      RMagics.Rpush B line w = (Except.error (PyErr.keyError m), w1) ∧
      w1.output = w.output ∧ w1.display = w.display := by
  obtain ⟨m, w1, hm, hp⟩ := pushList_error_of_missing B (pySplit line " ") w bad hmem hbad
  obtain ⟨r, hr⟩ := pushList_world B (pySplit line " ") w
  rw [hp] at hr
  simp only at hr
  exact ⟨m, w1, hm, hp, by rw [hr], by rw [hr]⟩

theorem push_missing_name_fatal_witness :
    ("b" ∈ pySplit "a b" " " ∧ nsGet c7W.userNs "b" = none) ∧
    ∃ m w1, nsGet c7W.userNs m = none ∧
      RMagics.Rpush (okBridge 0) "a b" c7W = (Except.error (PyErr.keyError m), w1) ∧
      w1.output = c7W.output ∧ w1.display = c7W.display :=
  ⟨⟨by decide, by decide⟩,
    push_missing_name_fatal (okBridge 0) "a b" c7W "b" (by decide) (by decide)⟩

/-! ### Claim C8 -/

/-- Claim C8: in every `execute` call (past the input-push stage), the
text drained from the output buffer is published exactly once as a
`text/plain` display item with source identifier `RMagic.R` (the
`textItem` constructor) when it is non-empty, and no text item is
published when it is empty — this holds on the normal path and on the
pull-failure path alike, since publication precedes the pull. -/
theorem text_publish_policy {α ρ : Type} (B : Bridge α ρ) (args : RArgs)
    (cell : Option String) (w w1 : World α ρ)
    (h : pushStage B args.input w = (Except.ok (), w1)) :
    ((RMagics.R B args cell w).2).display.filter textDisp =
      w.display.filter textDisp ++
        (if flushedText B args cell w1 = "" then []
         else [textItem (flushedText B args cell w1)]) := by
  rw [R_display_eq B args cell w w1 h, List.filter_append]
  congr 1
  unfold newDisplay
  rw [List.filter_append, filter_textDisp_pngs]
  by_cases ht : flushedText B args cell w1 = "" <;>
    simp [ht, List.filter_cons, textDisp_textItem]

theorem text_publish_policy_witness :
    pushStage echoBridge c1args.input emptyW = (Except.ok (), emptyW) ∧
    flushedText echoBridge c1args none emptyW = "hello" ∧
    ((RMagics.R echoBridge c1args none emptyW).2).display.filter textDisp =
      emptyW.display.filter textDisp ++
        (if flushedText echoBridge c1args none emptyW = "" then []
         else [textItem (flushedText echoBridge c1args none emptyW)]) :=
  ⟨rfl, rfl, text_publish_policy echoBridge c1args none emptyW emptyW rfl⟩

/-! ### Claim C9 -/

/-- Claim C9: an `execute` call with no output names leaves the host
namespace mapping unchanged — the pull of the listed output names
(rmagic.py lines 227-230) is the only write into the host namespace in
`R`. -/
theorem no_output_no_userns_write {α ρ : Type} (B : Bridge α ρ) (args : RArgs)
    (cell : Option String) (w : World α ρ) (h : args.output = none) :
    ((RMagics.R B args cell w).2).userNs = w.userNs := by
  unfold RMagics.R
  cases hp : pushStage B args.input w with
  | mk fst w1 =>
      have h1 : w1.userNs = w.userNs := by
        obtain ⟨r, hr⟩ := pushStage_world B args.input w
        rw [hp] at hr
        simp only at hr
        rw [hr]
      cases fst with
      | error e => simpa using h1
      | ok u =>
          cases u
          dsimp only
          unfold Rbody
          rw [show pullStage B args.output (w4of B args cell w1)
                = (Except.ok (), w4of B args cell w1) from by rw [h]; rfl]
          dsimp only
          exact h1

theorem no_output_no_userns_write_witness :
    c1args.output = none ∧
    ((RMagics.R (okBridge 7) c1args none rtW).2).userNs = rtW.userNs :=
  ⟨rfl, no_output_no_userns_write (okBridge 7) c1args none rtW rfl⟩

/-! ### Claim C10 -/

/-- Claim C10: the pull loop is not atomic on error — names are fetched
and assigned into the host namespace one at a time in the given order, so
when a later name is unbound in the interpreter the loop stops there with
the propagating lookup error, and every name preceding the failing one
has already been written (converted) into the host namespace, while
names at and after the failing one leave the host namespace untouched. -/
theorem pull_prefix_assigned {α ρ : Type} (B : Bridge α ρ) (good : List String)
    (bad : String) (rest : List String) (w : World α ρ)
    (hg : ∀ g ∈ good, (nsGet w.renv g).isSome) (hb : nsGet w.renv bad = none) :
    ∃ w', pullList B (good ++ bad :: rest) w
        = (Except.error (PyErr.rError (lookupErrMsg bad)), w') ∧
      w'.renv = w.renv ∧
      ∀ m, nsGet w'.userNs m =
        if m ∈ good then (nsGet w.renv m).map (fun v => B.Rconverter (some v))
        else nsGet w.userNs m := by
  induction good generalizing w with
  | nil =>
      refine ⟨w, ?_, rfl, fun m => by simp⟩
      simp [pullList, hb]
  | cons g gs ih =>
      have hgg := hg g (List.mem_cons_self g gs)
      cases h : nsGet w.renv g with
      | none => rw [h] at hgg; cases hgg
      | some v =>
          have hg' : ∀ x ∈ gs,
              (nsGet ({ w with userNs := nsSet w.userNs g (B.Rconverter (some v)) } : World α ρ).renv x).isSome :=
            fun x hx => hg x (List.mem_cons_of_mem _ hx)
          have hb' : nsGet ({ w with userNs := nsSet w.userNs g (B.Rconverter (some v)) } : World α ρ).renv bad = none := hb
          obtain ⟨w', hw, hr, hchar⟩ := ih _ hg' hb'
          refine ⟨w', by simp [pullList, h, hw], hr, ?_⟩
          intro m
          rw [hchar m]
          by_cases hm : m ∈ gs
          · simp [hm, List.mem_cons]
          · by_cases hmg : m = g
            · subst hmg
              simp [hm, h, nsGet_nsSet_self]
            · simp [hm, hmg, nsGet_nsSet_ne _ _ hmg]

theorem pull_prefix_assigned_witness :
    ((∀ g ∈ ["a"], (nsGet c10W.renv g).isSome) ∧ nsGet c10W.renv "b" = none) ∧
    ∃ w', pullList (okBridge 0) (["a"] ++ "b" :: ["c"]) c10W
        = (Except.error (PyErr.rError (lookupErrMsg "b")), w') ∧
      w'.renv = c10W.renv ∧
      ∀ m, nsGet w'.userNs m =
        if m ∈ ["a"] then (nsGet c10W.renv m).map (fun v => (okBridge 0).Rconverter (some v))
        else nsGet c10W.userNs m :=
  ⟨⟨by decide, by decide⟩,
    pull_prefix_assigned (okBridge 0) ["a"] "b" ["c"] c10W (by decide) (by decide)⟩
